import Mathlib

/-!
Verification of the remote execution engine of the cmdb repository.

The Python source (`assets/execution.py`, `assets/views.py`,
`assets/models.py`, `assets/management/commands/process_execution_tasks.py`)
is shallowly embedded: Django model rows become Lean structures, the
database becomes explicit lists of rows threaded through each operation,
`timezone.now()` becomes an explicit `now : Nat` argument, the croniter
library becomes an abstract `CronOracle` parameter, and the SSH transport
becomes an abstract per-server outcome function.  Pure-Python truthiness
tests (`if result.error`, `finished_at or timezone.now()`) are embedded
with their exact Python semantics.
-/

namespace Cmdb

/-- Task type choices of `ExecutionTask.TASK_TYPE_CHOICES`. -/
inductive TaskType
  | one_off
  | cron
deriving DecidableEq, Repr

/-- Run status choices of `ExecutionRun.STATUS_CHOICES`. -/
inductive RunStatus
  | scheduled
  | queued
  | running
  | success
  | failed
  | cancelled
deriving DecidableEq, Repr

/-- Stage status choices of `ExecutionStage.STATUS_CHOICES`. -/
inductive StageStatus
  | pending
  | running
  | success
  | failed
  | skipped
deriving DecidableEq, Repr

/-- Job status choices of `ExecutionJob.STATUS_CHOICES`. -/
inductive JobStatus
  | pending
  | running
  | success
  | failed
  | cancelled
deriving DecidableEq, Repr

/-- The slice of the `Server` model the execution engine reads: identity and
the management address used to order jobs (`order_by('server__management_ip')`). -/
structure Server where
  id : Nat
  management_ip : String
deriving DecidableEq, Repr

/-- The slice of Django's user object read by `create_run_for_task`
(`getattr(triggered_by, 'is_authenticated', False)`). -/
structure User where
  id : Nat
  is_authenticated : Bool
deriving DecidableEq, Repr

/-- Row of the `ExecutionTask` model (fields the engine touches).
`targets` embeds the ordered `ExecutionTaskTarget` server list. -/
structure ExecutionTask where
  id : Nat
  name : String
  description : String
  command : String
  task_type : TaskType
  cron_expression : String
  is_enabled : Bool
  last_run_at : Option Nat
  next_run_at : Option Nat
  targets : List Server
deriving DecidableEq, Repr

/-- `ExecutionTask.is_periodic`: `self.task_type == 'cron'`. -/
def ExecutionTask.is_periodic (t : ExecutionTask) : Bool :=
  t.task_type == TaskType.cron

/-- Row of the `ExecutionRun` model. -/
structure ExecutionRun where
  id : Nat
  taskId : Nat
  status : RunStatus
  scheduled_for : Option Nat
  started_at : Option Nat
  finished_at : Option Nat
  triggered_by : Option Nat
  is_manual : Bool
  notes : String
deriving DecidableEq, Repr

/-- Row of the `ExecutionStage` model. -/
structure ExecutionStage where
  id : Nat
  runId : Nat
  name : String
  order : Nat
  status : StageStatus
  started_at : Option Nat
  finished_at : Option Nat
deriving DecidableEq, Repr

/-- Row of the `ExecutionJob` model. -/
structure ExecutionJob where
  id : Nat
  stageId : Nat
  server : Server
  status : JobStatus
  exit_code : Option Int
  stdout : String
  stderr : String
  error_message : String
  started_at : Option Nat
  finished_at : Option Nat
deriving DecidableEq, Repr

/-- The relational store: one list of rows per model, plus a fresh-id
counter standing for the database's auto-increment primary keys. -/
structure ExecState where
  tasks : List ExecutionTask
  runs : List ExecutionRun
  stages : List ExecutionStage
  jobs : List ExecutionJob
  nextId : Nat
deriving DecidableEq, Repr

/-- Python truthiness of an `Optional[str]`: `None` and `''` are falsy. -/
def pyTruthyStr : Option String → Bool
  | none => false
  | some s => !(s == "")

/-- Outcome of one SSH attempt against one server: either the command ran
to completion (`ssh.exec_command` path of `_execute_job`) or some exception
was raised (caught by the `except Exception` branch, carrying `str(exc)`). -/
inductive SSHOutcome
  | ok (exit_code : Int) (stdout : String) (stderr : String)
  | exc (message : String)
deriving DecidableEq, Repr

/-- The `JobResult` dataclass of `execution.py`. -/
structure JobResult where
  server : Server
  exit_code : Option Int
  stdout : String
  stderr : String
  error : Option String
deriving DecidableEq, Repr

/-- `_execute_job`: run the command over SSH; on success capture exit code
and streams with `error = None`, on any exception return
`JobResult(server, None, '', '', str(exc))`. -/
def execute_job (ssh : Server → SSHOutcome) (server : Server) : JobResult :=
  match ssh server with
  | SSHOutcome.ok code out err => ⟨server, some code, out, err, none⟩
  | SSHOutcome.exc msg => ⟨server, none, "", "", some msg⟩

/-- The per-job failure test of `_execute_run`:
`if result.error or (result.exit_code is not None and result.exit_code != 0)`. -/
def jobFailedCheck (r : JobResult) : Bool :=
  pyTruthyStr r.error ||
    (match r.exit_code with
     | some c => decide (c ≠ 0)
     | none => false)

/-- The body of the job loop of `_execute_run` for one job: mark it
running, execute it, store the result fields
(`error_message = result.error or ''`), and set the final status from
`jobFailedCheck`. -/
def process_job (ssh : Server → SSHOutcome) (now : Nat) (job : ExecutionJob) :
    ExecutionJob :=
  let job1 := { job with status := JobStatus.running, started_at := some now }
  let result := execute_job ssh job1.server
  let job2 := { job1 with
    exit_code := result.exit_code
    stdout := result.stdout
    stderr := result.stderr
    error_message := result.error.getD ""
    finished_at := some now }
  if jobFailedCheck result then { job2 with status := JobStatus.failed }
  else { job2 with status := JobStatus.success }

/-- Insertion step of the `order_by('server__management_ip')` ordering. -/
def insertJobByIp (j : ExecutionJob) : List ExecutionJob → List ExecutionJob
  | [] => [j]
  | k :: rest =>
    if decide (j.server.management_ip ≤ k.server.management_ip) then j :: k :: rest
    else k :: insertJobByIp j rest

/-- `order_by('server__management_ip')` on the fetched job list. -/
def sortJobsByIp : List ExecutionJob → List ExecutionJob
  | [] => []
  | j :: rest => insertJobByIp j (sortJobsByIp rest)

/-- Abstract croniter: `(cron expression, reference) → next trigger`.
`none` models croniter being unavailable.  External library, so a
parameter of every definition that schedules. -/
def CronOracle := String → Nat → Option Nat

/-- `calculate_next_run`: empty expression gives `None`, otherwise defer to
croniter (whose unavailability the oracle models by `none`). -/
def calculate_next_run (oracle : CronOracle) (expr : String) (reference : Nat) :
    Option Nat :=
  if expr == "" then none else oracle expr reference

/-- `ExecutionTask.mark_last_run`: `last_run_at = finished_at or now`, and a
non-periodic task additionally has `next_run_at` cleared. -/
def mark_last_run (task : ExecutionTask) (finished_at : Option Nat) (now : Nat) :
    ExecutionTask :=
  let t1 := { task with
    last_run_at := some (match finished_at with | some f => f | none => now) }
  if t1.is_periodic then t1 else { t1 with next_run_at := none }

/-- `_update_task_schedule`: for a periodic task with a cron expression,
recompute `next_run_at` with `reference=timezone.now()`. -/
def update_task_schedule (oracle : CronOracle) (task : ExecutionTask) (now : Nat) :
    ExecutionTask :=
  if task.is_periodic && !(task.cron_expression == "") then
    match calculate_next_run oracle task.cron_expression now with
    | some nt => { task with next_run_at := some nt }
    | none => task
  else task

/-- The re-entrancy guard of `_execute_run`:
`run.status in {'running', 'success', 'failed', 'cancelled'}`. -/
def dispatchGuard (st : RunStatus) : Bool :=
  st == RunStatus.running || st == RunStatus.success ||
    st == RunStatus.failed || st == RunStatus.cancelled

/-- Aggregate result of dispatching one run (the rows `_execute_run`
rewrites: the owning task, the run, its stage, and the stage's jobs). -/
structure DispatchResult where
  task : ExecutionTask
  run : ExecutionRun
  stage : ExecutionStage
  jobs : List ExecutionJob
deriving DecidableEq, Repr

/-- The body of `_execute_run` after the guard: run and stage become
running, every job of the stage is executed in management-ip order, the
`all_success` flag aggregates the per-job outcomes, stage and run take
`success`/`failed` from it with finish stamps, and the task gets
`mark_last_run` plus (if periodic) `_update_task_schedule`. -/
def dispatch_core (oracle : CronOracle) (ssh : Server → SSHOutcome) (now : Nat)
    (task : ExecutionTask) (run : ExecutionRun) (stage : ExecutionStage)
    (jobs : List ExecutionJob) : DispatchResult :=
  let run1 := { run with status := RunStatus.running, started_at := some now }
  let stage1 := { stage with status := StageStatus.running, started_at := some now }
  let processed := (sortJobsByIp jobs).map (process_job ssh now)
  let all_success := processed.all (fun j => j.status == JobStatus.success)
  let stage2 := { stage1 with
    status := if all_success then StageStatus.success else StageStatus.failed
    finished_at := some now }
  let run2 := { run1 with
    status := if all_success then RunStatus.success else RunStatus.failed
    finished_at := some now }
  let task1 := mark_last_run task run2.finished_at now
  let task2 := if task1.is_periodic then update_task_schedule oracle task1 now else task1
  ⟨task2, run2, stage2, processed⟩

/-- `_execute_run` on the aggregate view of one run: the guard makes it a
no-op on running/terminal/cancelled runs, otherwise `dispatch_core`. -/
def dispatch_run (oracle : CronOracle) (ssh : Server → SSHOutcome) (now : Nat)
    (task : ExecutionTask) (run : ExecutionRun) (stage : ExecutionStage)
    (jobs : List ExecutionJob) : DispatchResult :=
  if dispatchGuard run.status then ⟨task, run, stage, jobs⟩
  else dispatch_core oracle ssh now task run stage jobs

/-- The job-row loop of `_prepare_stage`: one `ExecutionJob` row per server
of the target list, in list order, with the model's field defaults, ids
drawn from the auto-increment counter. -/
def prepare_stage_jobs (startId stageId : Nat) : List Server → List ExecutionJob
  | [] => []
  | srv :: rest =>
    { id := startId
      stageId := stageId
      server := srv
      status := JobStatus.pending
      exit_code := none
      stdout := ""
      stderr := ""
      error_message := ""
      started_at := none
      finished_at := none } :: prepare_stage_jobs (startId + 1) stageId rest

/-- The `ExecutionRun.objects.create(...)` call of `create_run_for_task`:
default status `scheduled` iff `scheduled_for` lies strictly in the future
(caller override wins), `triggered_by` recorded only for an authenticated
identity. -/
def created_run (s : ExecState) (task : ExecutionTask) (scheduled_for : Option Nat)
    (triggered_by : Option User) (manual : Bool) (status : Option RunStatus)
    (now : Nat) : ExecutionRun :=
  { id := s.nextId
    taskId := task.id
    status := match status with
      | some st => st
      | none => match scheduled_for with
        | some t => if now < t then RunStatus.scheduled else RunStatus.queued
        | none => RunStatus.queued
    scheduled_for := scheduled_for
    started_at := none
    finished_at := none
    triggered_by := match triggered_by with
      | some u => if u.is_authenticated then some u.id else none
      | none => none
    is_manual := manual
    notes := "" }

/-- The `ExecutionStage.objects.create(run=run, name='远程执行', order=1)`
call of `_prepare_stage`, for the run created in the same transaction. -/
def created_stage (s : ExecState) : ExecutionStage :=
  { id := s.nextId + 1
    runId := s.nextId
    name := "远程执行"
    order := 1
    status := StageStatus.pending
    started_at := none
    finished_at := none }

/-- `create_run_for_task` (with `_prepare_stage` inlined): resolve the
target list (the task's ordered targets when `servers is None`), raise
`ValueError('任务未配置目标服务器,无法创建执行。')` when it is empty, and
atomically insert the run row, one stage row (`name='远程执行', order=1`)
and one job row per target server.  On error the state is returned
untouched. -/
def create_run_for_task (s : ExecState) (task : ExecutionTask)
    (servers : Option (List Server)) (scheduled_for : Option Nat)
    (triggered_by : Option User) (manual : Bool) (status : Option RunStatus)
    (now : Nat) : ExecState × Except String ExecutionRun :=
  let resolved := match servers with
    | none => task.targets
    | some l => l
  if resolved.isEmpty then
    (s, Except.error "任务未配置目标服务器,无法创建执行。")
  else
    let run := created_run s task scheduled_for triggered_by manual status now
    let stage := created_stage s
    let newJobs := prepare_stage_jobs (s.nextId + 2) stage.id resolved
    ({ s with
        runs := s.runs ++ [run]
        stages := s.stages ++ [stage]
        jobs := s.jobs ++ newJobs
        nextId := s.nextId + 2 + resolved.length },
     Except.ok run)

/-- `has_active_run`: the task has some run whose status is queued or
running. -/
def has_active_run (s : ExecState) (task : ExecutionTask) : Bool :=
  s.runs.any (fun r =>
    r.taskId == task.id &&
      (r.status == RunStatus.queued || r.status == RunStatus.running))

/-- `_execute_run` at the store level: fetch the run (no-op when the guard
fires), fetch its task, fetch or defensively create its first stage, run
`dispatch_core` over the stage's jobs, and write every touched row back. -/
def execute_run (oracle : CronOracle) (ssh : Server → SSHOutcome)
    (s : ExecState) (runId : Nat) (now : Nat) : ExecState :=
  match s.runs.find? (fun r => r.id == runId) with
  | none => s
  | some run =>
    if dispatchGuard run.status then s
    else
      match s.tasks.find? (fun t => t.id == run.taskId) with
      | none => s
      | some task =>
        let freshStage : ExecutionStage :=
          { id := s.nextId
            runId := run.id
            name := "远程执行"
            order := 1
            status := StageStatus.pending
            started_at := none
            finished_at := none }
        let fetched := (s.stages.filter (fun st => st.runId == run.id)).head?
        let stage := match fetched with
          | some st => st
          | none => freshStage
        let stages1 := match fetched with
          | some _ => s.stages
          | none => s.stages ++ [freshStage]
        let nextId1 := match fetched with
          | some _ => s.nextId
          | none => s.nextId + 1
        let jobs := s.jobs.filter (fun j => j.stageId == stage.id)
        let out := dispatch_core oracle ssh now task run stage jobs
        { tasks := s.tasks.map (fun t => if t.id == task.id then out.task else t)
          runs := s.runs.map (fun r => if r.id == run.id then out.run else r)
          stages := stages1.map (fun st => if st.id == stage.id then out.stage else st)
          jobs := s.jobs.map (fun j => if j.stageId == stage.id then process_job ssh now j else j)
          nextId := nextId1 }

/-- `start_run_async`: the synchronous part promotes a scheduled run to
queued; the detached worker thread then performs `_execute_run`, modeled
here as running it sequentially afterwards. -/
def start_run_async (oracle : CronOracle) (ssh : Server → SSHOutcome)
    (s : ExecState) (runId : Nat) (now : Nat) : ExecState :=
  let s1 := match s.runs.find? (fun r => r.id == runId) with
    | some run =>
      if run.status == RunStatus.scheduled then
        { s with runs := s.runs.map (fun r =>
            if r.id == runId then { r with status := RunStatus.queued } else r) }
      else s
    | none => s
  execute_run oracle ssh s1 runId now

/-- Outcome surfaced by a view action: either a created run or the message
the view renders on refusal. -/
inductive ViewOutcome
  | ok (run : ExecutionRun)
  | err (msg : String)
deriving DecidableEq, Repr

/-- The `action == 'trigger'` branch of `task_detail_view`: refuse with a
warning while the task has an active run, otherwise create a new manual
run (the created run is handed to `start_run_async`; its background
execution is modeled separately by `execute_run`). -/
def trigger_task (s : ExecState) (task : ExecutionTask) (user : Option User)
    (now : Nat) : ExecState × ViewOutcome :=
  if has_active_run s task then
    (s, ViewOutcome.err "已存在执行中的任务,请稍后再试。")
  else
    match create_run_for_task s task none none user true none now with
    | (s1, Except.ok run) => (s1, ViewOutcome.ok run)
    | (s1, Except.error m) => (s1, ViewOutcome.err m)

/-- The failed-server collection of the `action == 'retry_failed'` branch:
for every stage of the run, every job with status failed contributes its
server, in iteration order. -/
def failed_servers_of_run (s : ExecState) (run : ExecutionRun) : List Server :=
  ((s.stages.filter (fun st => st.runId == run.id)).flatMap
    (fun st => s.jobs.filter (fun j =>
      j.stageId == st.id && j.status == JobStatus.failed))).map
    (fun j => j.server)

/-- The `action == 'retry_failed'` branch of `task_detail_view`: refuse
when no job of the run failed, otherwise create a new manual run targeting
exactly the failed jobs' servers. -/
def retry_failed (s : ExecState) (task : ExecutionTask) (run : ExecutionRun)
    (user : Option User) (now : Nat) : ExecState × ViewOutcome :=
  let fs := failed_servers_of_run s run
  if fs.isEmpty then
    (s, ViewOutcome.err "没有失败的节点需要重试。")
  else
    match create_run_for_task s task (some fs) none user true none now with
    | (s1, Except.ok newRun) => (s1, ViewOutcome.ok newRun)
    | (s1, Except.error m) => (s1, ViewOutcome.err m)

/-- The `action == 'cancel_run'` branch of `task_detail_view`: a queued or
scheduled run becomes cancelled with a finish stamp; any other status is
refused with a warning and nothing changes. -/
def cancel_run (s : ExecState) (runId : Nat) (now : Nat) :
    ExecState × Option String :=
  match s.runs.find? (fun r => r.id == runId) with
  | none => (s, some "任务不存在。")
  | some run =>
    if run.status == RunStatus.queued || run.status == RunStatus.scheduled then
      ({ s with runs := s.runs.map (fun r =>
          if r.id == runId then
            { r with status := RunStatus.cancelled, finished_at := some now }
          else r) },
       none)
    else (s, some "仅能取消排队或计划中的任务。")

/-- Store `next_run_at` on the task row
(`task.save(update_fields=['next_run_at'])`). -/
def set_task_next_run (s : ExecState) (taskId : Nat) (nt : Nat) : ExecState :=
  { s with tasks := s.tasks.map (fun t =>
      if t.id == taskId then { t with next_run_at := some nt } else t) }

/-- One task's step of `_dispatch_cron_tasks` (Sweep B): skip on an active
run; arm an unset `next_run_at` from `reference=now` without firing; skip
when not yet due; otherwise create a run (a creation error is caught and
skips the schedule update), hand it to the background dispatcher, and
store `calculate_next_run(expr, task.next_run_at or now)` — the previous
`next_run_at` — as the new `next_run_at`. -/
def dispatch_cron_task (oracle : CronOracle) (s : ExecState)
    (task : ExecutionTask) (now : Nat) : ExecState × Option ExecutionRun :=
  if has_active_run s task then (s, none)
  else
    match task.next_run_at with
    | none =>
      match calculate_next_run oracle task.cron_expression now with
      | some nt => (set_task_next_run s task.id nt, none)
      | none => (s, none)
    | some nra =>
      if now < nra then (s, none)
      else
        match create_run_for_task s task none none none false none now with
        | (s1, Except.error _) => (s1, none)
        | (s1, Except.ok run) =>
          match calculate_next_run oracle task.cron_expression nra with
          | some nt => (set_task_next_run s1 task.id nt, some run)
          | none => (s1, some run)

/-! ### Helper lemmas -/

/-- `find?` over a keyed row update: updating every row matching `p` by a
`p`-preserving `f` turns the first `p`-match into its updated version. -/
theorem find_map_keyed {α : Type} (p : α → Bool) (f : α → α)
    (hf : ∀ x, p (f x) = p x) (l : List α) :
    (l.map (fun x => if p x then f x else x)).find? p = (l.find? p).map f := by
  induction l with
  | nil => rfl
  | cons a l ih =>
    by_cases h : p a = true
    · rw [List.map_cons, if_pos h, List.find?_cons_of_pos _ ((hf a).trans h),
        List.find?_cons_of_pos _ h, Option.map_some']
    · rw [List.map_cons, if_neg h, List.find?_cons_of_neg _ h,
        List.find?_cons_of_neg _ h, ih]

theorem prepare_stage_jobs_map_server (startId stageId : Nat) (l : List Server) :
    (prepare_stage_jobs startId stageId l).map (fun j => j.server) = l := by
  induction l generalizing startId with
  | nil => rfl
  | cons a t ih => simp [prepare_stage_jobs, ih]

theorem prepare_stage_jobs_length (startId stageId : Nat) (l : List Server) :
    (prepare_stage_jobs startId stageId l).length = l.length := by
  induction l generalizing startId with
  | nil => rfl
  | cons a t ih => simp [prepare_stage_jobs, ih]

theorem prepare_stage_jobs_stageId (startId stageId : Nat) (l : List Server)
    {j : ExecutionJob} (h : j ∈ prepare_stage_jobs startId stageId l) :
    j.stageId = stageId := by
  induction l generalizing startId with
  | nil => cases h
  | cons a t ih =>
    rcases List.mem_cons.mp h with rfl | hmem
    · rfl
    · exact ih _ hmem

theorem prepare_stage_jobs_filter_not_mem (srv : Server) (startId stageId : Nat)
    {l : List Server} (h : srv ∉ l) :
    (prepare_stage_jobs startId stageId l).filter (fun j => j.server == srv) = [] := by
  induction l generalizing startId with
  | nil => rfl
  | cons a t ih =>
    have ha : (a == srv) = false := by
      have : a ≠ srv := fun e => h (e ▸ List.mem_cons_self a t)
      simp [this]
    simp only [prepare_stage_jobs, List.filter_cons, ha]
    simpa using ih (startId + 1) (fun hm => h (List.mem_cons_of_mem a hm))

/-- In the job rows built from a duplicate-free server list, each listed
server owns exactly one row. -/
theorem prepare_stage_jobs_one_per_server (srv : Server) {l : List Server}
    (hd : l.Nodup) (hs : srv ∈ l) (startId stageId : Nat) :
    ((prepare_stage_jobs startId stageId l).filter
      (fun j => j.server == srv)).length = 1 := by
  induction l generalizing startId with
  | nil => cases hs
  | cons a t ih =>
    rcases List.mem_cons.mp hs with rfl | hmem
    · have hnot : srv ∉ t := (List.nodup_cons.mp hd).1
      simp only [prepare_stage_jobs, List.filter_cons]
      rw [prepare_stage_jobs_filter_not_mem srv _ _ hnot]
      simp
    · have hne : (a == srv) = false := by
        have : a ≠ srv := by rintro rfl; exact (List.nodup_cons.mp hd).1 hmem
        simp [this]
      simp only [prepare_stage_jobs, List.filter_cons, hne]
      simpa using ih (List.nodup_cons.mp hd).2 hmem (startId + 1)

/-- A list with no `p`-elements filters to `[]`. -/
theorem filter_eq_nil_of_not {α : Type} (p : α → Bool) {l : List α}
    (h : ∀ a ∈ l, p a = false) : l.filter p = [] := by
  induction l with
  | nil => rfl
  | cons a t ih =>
    simp only [List.filter_cons, h a (List.mem_cons_self a t)]
    exact ih (fun b hb => h b (List.mem_cons_of_mem a hb))

/-- A list of `p`-elements filters to itself. -/
theorem filter_eq_self_of_all {α : Type} (p : α → Bool) {l : List α}
    (h : ∀ a ∈ l, p a = true) : l.filter p = l := by
  induction l with
  | nil => rfl
  | cons a t ih =>
    simp only [List.filter_cons, h a (List.mem_cons_self a t), if_pos]
    rw [ih (fun b hb => h b (List.mem_cons_of_mem a hb))]

theorem all_success_iff (l : List ExecutionJob) :
    l.all (fun j => j.status == JobStatus.success) = true ↔
      ∀ j ∈ l, j.status = JobStatus.success := by
  simp [List.all_eq_true]

theorem mark_last_run_is_periodic (task : ExecutionTask) (f : Option Nat) (now : Nat) :
    (mark_last_run task f now).is_periodic = task.is_periodic := by
  obtain ⟨i, n, d, c, tt, ce, en, lr, nr, tg⟩ := task
  cases tt <;> cases f <;> rfl

theorem mark_last_run_last_run_at (task : ExecutionTask) (f : Nat) (now : Nat) :
    (mark_last_run task (some f) now).last_run_at = some f := by
  obtain ⟨i, n, d, c, tt, ce, en, lr, nr, tg⟩ := task
  cases tt <;> rfl

theorem update_task_schedule_last_run_at (oracle : CronOracle)
    (task : ExecutionTask) (now : Nat) :
    (update_task_schedule oracle task now).last_run_at = task.last_run_at := by
  unfold update_task_schedule
  split
  · split <;> rfl
  · rfl

/-- Auto-increment discipline of the store: every row id and foreign key
is below the fresh-id counter. -/
def FreshIds (s : ExecState) : Prop :=
  (∀ r ∈ s.runs, r.id < s.nextId) ∧
  (∀ st ∈ s.stages, st.id < s.nextId ∧ st.runId < s.nextId) ∧
  (∀ j ∈ s.jobs, j.stageId < s.nextId)

instance decFreshIds (s : ExecState) : Decidable (FreshIds s) := by
  unfold FreshIds
  exact inferInstance

/-! ### Concrete demo rows, used by the witnesses and the counterexample -/

def srvA : Server := ⟨1, "10.0.0.1"⟩

def srvB : Server := ⟨2, "10.0.0.2"⟩

def demoTask : ExecutionTask :=
  { id := 10, name := "demo", description := "", command := "uptime",
    task_type := TaskType.one_off, cron_expression := "", is_enabled := true,
    last_run_at := none, next_run_at := none, targets := [srvA, srvB] }

def demoState : ExecState :=
  { tasks := [demoTask], runs := [], stages := [], jobs := [], nextId := 11 }

/-! ### Claim theorems -/

/-- Claim C5: when the resolved server list is empty (targets omitted and
the task has none, or an empty explicit list), `create_run_for_task` fails
with the no-targets `ValueError` (the spec's `NoTargetsError`) and the
store is returned unchanged: no run, stage or job row is created. -/
theorem create_run_no_targets (s : ExecState) (task : ExecutionTask)
    (servers : Option (List Server)) (scheduled_for : Option Nat)
    (triggered_by : Option User) (manual : Bool) (status : Option RunStatus)
    (now : Nat)
    (h : (match servers with | none => task.targets | some l => l) = []) :
    create_run_for_task s task servers scheduled_for triggered_by manual status now
      = (s, Except.error "任务未配置目标服务器,无法创建执行。") := by
  unfold create_run_for_task
  rw [h]
  rfl

/-- Success equation of `create_run_for_task`: with a nonempty resolved
target list the call returns the store with the run, stage and job rows of
the transaction appended. -/
theorem create_run_ok (s : ExecState) (task : ExecutionTask)
    (servers : Option (List Server)) (scheduled_for : Option Nat)
    (triggered_by : Option User) (manual : Bool) (status : Option RunStatus)
    (now : Nat) (resolved : List Server)
    (hres : (match servers with | none => task.targets | some l => l) = resolved)
    (hne : resolved ≠ []) :
    create_run_for_task s task servers scheduled_for triggered_by manual status now
      = ({ s with
            runs := s.runs ++ [created_run s task scheduled_for triggered_by manual status now]
            stages := s.stages ++ [created_stage s]
            jobs := s.jobs ++ prepare_stage_jobs (s.nextId + 2) (created_stage s).id resolved
            nextId := s.nextId + 2 + resolved.length },
         Except.ok (created_run s task scheduled_for triggered_by manual status now)) := by
  have hempty : resolved.isEmpty = false := by
    cases resolved with
    | nil => exact absurd rfl hne
    | cons a t => rfl
  unfold create_run_for_task
  rw [hres]
  simp only [hempty, Bool.false_eq_true, if_false]

/-- Witness for C5 at a task with no targets. -/
theorem create_run_no_targets_witness :
    (match (none : Option (List Server)) with
      | none => ({ id := 1, name := "t", description := "", command := "c",
                   task_type := TaskType.one_off, cron_expression := "",
                   is_enabled := true, last_run_at := none, next_run_at := none,
                   targets := [] } : ExecutionTask).targets
      | some l => l) = [] ∧
    create_run_for_task ⟨[], [], [], [], 0⟩
        { id := 1, name := "t", description := "", command := "c",
          task_type := TaskType.one_off, cron_expression := "",
          is_enabled := true, last_run_at := none, next_run_at := none,
          targets := [] }
        none none none true none 0
      = (⟨[], [], [], [], 0⟩, Except.error "任务未配置目标服务器,无法创建执行。") :=
  ⟨rfl, create_run_no_targets _ _ _ _ _ _ _ _ rfl⟩

/-- Claim C4: a successful `create_run_for_task` with N ≥ 1 resolved
(distinct) target servers appends — in one transaction, so on success all
rows exist together (and by C5 an error leaves none) — one run row, one
stage row named `远程执行` ("remote execution") with order 1 that is the
run's only stage, and exactly N job rows in that stage, one per distinct
target server. -/
theorem create_run_stage_and_jobs (s : ExecState) (task : ExecutionTask)
    (servers : Option (List Server)) (scheduled_for : Option Nat)
    (triggered_by : Option User) (manual : Bool) (status : Option RunStatus)
    (now : Nat) (resolved : List Server)
    (hres : (match servers with | none => task.targets | some l => l) = resolved)
    (hne : resolved ≠ [])
    (hnd : resolved.Nodup)
    (hfresh : FreshIds s) :
    ∃ s1 run stage,
      create_run_for_task s task servers scheduled_for triggered_by manual status now
        = (s1, Except.ok run) ∧
      s1.runs = s.runs ++ [run] ∧
      s1.stages = s.stages ++ [stage] ∧
      stage.name = "远程执行" ∧ stage.order = 1 ∧ stage.runId = run.id ∧
      s1.stages.filter (fun st => st.runId == run.id) = [stage] ∧
      (s1.jobs.filter (fun j => j.stageId == stage.id)).map (fun j => j.server)
        = resolved ∧
      (s1.jobs.filter (fun j => j.stageId == stage.id)).length = resolved.length ∧
      (∀ srv ∈ resolved,
        ((s1.jobs.filter (fun j => j.stageId == stage.id)).filter
          (fun j => j.server == srv)).length = 1) := by
  refine ⟨_, _, created_stage s,
    create_run_ok s task servers scheduled_for triggered_by manual status now
      resolved hres hne, rfl, rfl, rfl, rfl, rfl, ?_, ?_, ?_, ?_⟩
  case _ =>
    rw [List.filter_append]
    rw [filter_eq_nil_of_not _ (fun st hst => by
      simp only [beq_eq_false_iff_ne]
      exact Nat.ne_of_lt (hfresh.2.1 st hst).2)]
    simp [created_stage, created_run]
  all_goals
    rw [List.filter_append,
      filter_eq_nil_of_not _ (fun j hj => by
        simp only [beq_eq_false_iff_ne, created_stage]
        exact Nat.ne_of_lt (Nat.lt_succ_of_lt (hfresh.2.2 j hj))),
      filter_eq_self_of_all _ (fun j hj => by
        simp only [beq_iff_eq]
        exact prepare_stage_jobs_stageId _ _ _ hj),
      List.nil_append]
  · exact prepare_stage_jobs_map_server _ _ _
  · exact prepare_stage_jobs_length _ _ _
  · exact fun srv hs => prepare_stage_jobs_one_per_server srv hnd hs _ _

/-- Witness for C4 at a task with two distinct target servers. -/
theorem create_run_stage_and_jobs_witness :
    ((match (none : Option (List Server)) with
       | none => demoTask.targets
       | some l => l) = [srvA, srvB]) ∧
    ([srvA, srvB] ≠ ([] : List Server)) ∧
    ([srvA, srvB] : List Server).Nodup ∧
    FreshIds demoState ∧
    (∃ s1 run stage,
      create_run_for_task demoState demoTask none none none true none 0
        = (s1, Except.ok run) ∧
      s1.runs = demoState.runs ++ [run] ∧
      s1.stages = demoState.stages ++ [stage] ∧
      stage.name = "远程执行" ∧ stage.order = 1 ∧ stage.runId = run.id ∧
      s1.stages.filter (fun st => st.runId == run.id) = [stage] ∧
      (s1.jobs.filter (fun j => j.stageId == stage.id)).map (fun j => j.server)
        = [srvA, srvB] ∧
      (s1.jobs.filter (fun j => j.stageId == stage.id)).length
        = ([srvA, srvB] : List Server).length ∧
      (∀ srv ∈ ([srvA, srvB] : List Server),
        ((s1.jobs.filter (fun j => j.stageId == stage.id)).filter
          (fun j => j.server == srv)).length = 1)) :=
  ⟨rfl, by decide, by decide, by decide,
    create_run_stage_and_jobs demoState demoTask none none none true none 0
      [srvA, srvB] rfl (by decide) (by decide) (by decide)⟩

/-- Claim C1: when a run's dispatch completes (the re-entrancy guard did
not fire), the final stage status is success iff every job of the stage
finished with status success (failed otherwise), the run's final status
mirrors the stage's, and hence the run succeeds iff all its jobs did. -/
theorem dispatch_status_aggregation (oracle : CronOracle)
    (ssh : Server → SSHOutcome) (now : Nat) (task : ExecutionTask)
    (run : ExecutionRun) (stage : ExecutionStage) (jobs : List ExecutionJob)
    (hg : dispatchGuard run.status = false) :
    ((dispatch_run oracle ssh now task run stage jobs).stage.status = StageStatus.success
      ↔ ∀ j ∈ (dispatch_run oracle ssh now task run stage jobs).jobs,
          j.status = JobStatus.success) ∧
    ((dispatch_run oracle ssh now task run stage jobs).stage.status = StageStatus.success ∨
      (dispatch_run oracle ssh now task run stage jobs).stage.status = StageStatus.failed) ∧
    ((dispatch_run oracle ssh now task run stage jobs).run.status = RunStatus.success
      ↔ (dispatch_run oracle ssh now task run stage jobs).stage.status = StageStatus.success) ∧
    ((dispatch_run oracle ssh now task run stage jobs).run.status = RunStatus.success ∨
      (dispatch_run oracle ssh now task run stage jobs).run.status = RunStatus.failed) ∧
    ((dispatch_run oracle ssh now task run stage jobs).run.status = RunStatus.success
      ↔ ∀ j ∈ (dispatch_run oracle ssh now task run stage jobs).jobs,
          j.status = JobStatus.success) := by
  have hd : dispatch_run oracle ssh now task run stage jobs
      = dispatch_core oracle ssh now task run stage jobs := by
    unfold dispatch_run
    rw [hg]
    rfl
  have hjobs : (dispatch_core oracle ssh now task run stage jobs).jobs
      = (sortJobsByIp jobs).map (process_job ssh now) := rfl
  have hstage : (dispatch_core oracle ssh now task run stage jobs).stage.status
      = (if ((sortJobsByIp jobs).map (process_job ssh now)).all
            (fun j => j.status == JobStatus.success)
         then StageStatus.success else StageStatus.failed) := rfl
  have hrun : (dispatch_core oracle ssh now task run stage jobs).run.status
      = (if ((sortJobsByIp jobs).map (process_job ssh now)).all
            (fun j => j.status == JobStatus.success)
         then RunStatus.success else RunStatus.failed) := rfl
  rw [hd, hjobs, hstage, hrun]
  cases hall : ((sortJobsByIp jobs).map (process_job ssh now)).all
      (fun j => j.status == JobStatus.success) with
  | true =>
    have hforall := (all_success_iff _).mp hall
    have hforall2 : ∀ a ∈ sortJobsByIp jobs,
        (process_job ssh now a).status = JobStatus.success :=
      fun a ha => hforall _ (List.mem_map_of_mem _ ha)
    refine ⟨?_, ?_, ?_, ?_, ?_⟩ <;> simp [hall] <;> exact hforall2
  | false =>
    have hnall : ¬ ∀ j ∈ (sortJobsByIp jobs).map (process_job ssh now),
        j.status = JobStatus.success := by
      intro hf
      rw [(all_success_iff _).mpr hf] at hall
      cases hall
    have hnall2 : ¬ ∀ a ∈ sortJobsByIp jobs,
        (process_job ssh now a).status = JobStatus.success := by
      intro h
      refine hnall ?_
      intro j hj
      rcases List.mem_map.mp hj with ⟨a, ha, rfl⟩
      exact h a ha
    refine ⟨?_, ?_, ?_, ?_, ?_⟩ <;> simp [hall] <;>
      · push_neg at hnall2
        exact hnall2

def demoRunQueued : ExecutionRun :=
  ⟨20, 10, RunStatus.queued, none, none, none, none, true, ""⟩

def demoStage : ExecutionStage :=
  ⟨21, 20, "远程执行", 1, StageStatus.pending, none, none⟩

def demoJobA : ExecutionJob :=
  ⟨22, 21, srvA, JobStatus.pending, none, "", "", "", none, none⟩

def demoJobB : ExecutionJob :=
  ⟨23, 21, srvB, JobStatus.pending, none, "", "", "", none, none⟩

/-- SSH oracle where server 1 succeeds and every other server raises a
connection error. -/
def demoSsh : Server → SSHOutcome := fun srv =>
  if srv.id == 1 then SSHOutcome.ok 0 "ok" "" else SSHOutcome.exc "connection refused"

/-- Cron oracle standing for croniter being unavailable. -/
def demoOracle : CronOracle := fun _ _ => none

/-- Witness for C1 on a queued run with one succeeding and one failing job. -/
theorem dispatch_status_aggregation_witness :
    dispatchGuard demoRunQueued.status = false ∧
    (((dispatch_run demoOracle demoSsh 5 demoTask demoRunQueued demoStage
        [demoJobA, demoJobB]).stage.status = StageStatus.success
      ↔ ∀ j ∈ (dispatch_run demoOracle demoSsh 5 demoTask demoRunQueued demoStage
          [demoJobA, demoJobB]).jobs, j.status = JobStatus.success) ∧
    ((dispatch_run demoOracle demoSsh 5 demoTask demoRunQueued demoStage
        [demoJobA, demoJobB]).stage.status = StageStatus.success ∨
      (dispatch_run demoOracle demoSsh 5 demoTask demoRunQueued demoStage
        [demoJobA, demoJobB]).stage.status = StageStatus.failed) ∧
    ((dispatch_run demoOracle demoSsh 5 demoTask demoRunQueued demoStage
        [demoJobA, demoJobB]).run.status = RunStatus.success
      ↔ (dispatch_run demoOracle demoSsh 5 demoTask demoRunQueued demoStage
          [demoJobA, demoJobB]).stage.status = StageStatus.success) ∧
    ((dispatch_run demoOracle demoSsh 5 demoTask demoRunQueued demoStage
        [demoJobA, demoJobB]).run.status = RunStatus.success ∨
      (dispatch_run demoOracle demoSsh 5 demoTask demoRunQueued demoStage
        [demoJobA, demoJobB]).run.status = RunStatus.failed) ∧
    ((dispatch_run demoOracle demoSsh 5 demoTask demoRunQueued demoStage
        [demoJobA, demoJobB]).run.status = RunStatus.success
      ↔ ∀ j ∈ (dispatch_run demoOracle demoSsh 5 demoTask demoRunQueued demoStage
          [demoJobA, demoJobB]).jobs, j.status = JobStatus.success)) :=
  ⟨by decide,
    dispatch_status_aggregation demoOracle demoSsh 5 demoTask demoRunQueued
      demoStage [demoJobA, demoJobB] (by decide)⟩

/-- Claim C2 (code bug), evaluated at the failing input: an SSH exception
whose message is the empty string (Python's `str(TimeoutError()) == ''`).
`_execute_run` decides failure with `if result.error or (...)`; the empty
string is falsy in Python, so a job whose command never ran is recorded as
`success` with `exit_code = None` and an empty `error_message`, while the
claim requires status `failed` and a non-empty `error_message` on every
infrastructure failure.  With any non-empty exception message the code
does behave as claimed (last conjunct). -/
theorem infra_failure_empty_message_bug :
    (process_job (fun _ => SSHOutcome.exc "") 5 demoJobB).status
      = JobStatus.success ∧
    (process_job (fun _ => SSHOutcome.exc "") 5 demoJobB).exit_code = none ∧
    (process_job (fun _ => SSHOutcome.exc "") 5 demoJobB).error_message = "" ∧
    (process_job (fun _ => SSHOutcome.exc "connection refused") 5 demoJobB).status
      = JobStatus.failed :=
  ⟨rfl, rfl, rfl, rfl⟩

/-- Claim C3: dispatching a run whose status is already in
running/success/failed/cancelled is a no-op — `_execute_run` (and
`start_run_async` around it) return the store unchanged, so the run, its
stage, its jobs and the owning task are all untouched. -/
theorem dispatch_terminal_noop (oracle : CronOracle) (ssh : Server → SSHOutcome)
    (s : ExecState) (runId now : Nat) (run : ExecutionRun)
    (hfind : s.runs.find? (fun r => r.id == runId) = some run)
    (hg : dispatchGuard run.status = true) :
    execute_run oracle ssh s runId now = s ∧
    start_run_async oracle ssh s runId now = s := by
  have h1 : execute_run oracle ssh s runId now = s := by
    unfold execute_run
    rw [hfind]
    simp [hg]
  refine ⟨h1, ?_⟩
  have hns : (run.status == RunStatus.scheduled) = false := by
    cases h : run.status <;> simp_all [dispatchGuard]
  unfold start_run_async
  rw [hfind]
  simp only [hns, Bool.false_eq_true, if_false]
  exact h1

def demoRunDone : ExecutionRun :=
  ⟨30, 10, RunStatus.success, none, some 3, some 4, none, false, ""⟩

def demoStateDone : ExecState :=
  { tasks := [demoTask], runs := [demoRunDone], stages := [], jobs := [], nextId := 31 }

/-- Witness for C3 on a run already in status success. -/
theorem dispatch_terminal_noop_witness :
    demoStateDone.runs.find? (fun r => r.id == 30) = some demoRunDone ∧
    dispatchGuard demoRunDone.status = true ∧
    (execute_run demoOracle demoSsh demoStateDone 30 7 = demoStateDone ∧
      start_run_async demoOracle demoSsh demoStateDone 30 7 = demoStateDone) :=
  ⟨rfl, by decide,
    dispatch_terminal_noop demoOracle demoSsh demoStateDone 30 7 demoRunDone
      rfl (by decide)⟩

/-- Claim C10: `mark_last_run`, invoked at the end of every completed
dispatch with the run's finish stamp, always sets the task's
`last_run_at` to that stamp; a non-cron task additionally gets
`next_run_at` cleared to null (erasing any value set when its run was
scheduled ahead of time) while a cron task's `next_run_at` is left alone
by this operation; every other task field is unmodified.  The last three
conjuncts tie the operation to the dispatch: the dispatched run's
`finished_at` is the stamp passed on, the task ends the dispatch with
`last_run_at` equal to it, and a one-off task ends with `next_run_at`
null. -/
theorem mark_last_run_effect (oracle : CronOracle) (ssh : Server → SSHOutcome)
    (now : Nat) (task : ExecutionTask) (run : ExecutionRun)
    (stage : ExecutionStage) (jobs : List ExecutionJob) (f : Nat)
    (hg : dispatchGuard run.status = false) :
    (mark_last_run task (some f) now).last_run_at = some f ∧
    (task.is_periodic = false → (mark_last_run task (some f) now).next_run_at = none) ∧
    (task.is_periodic = true →
      (mark_last_run task (some f) now).next_run_at = task.next_run_at) ∧
    (mark_last_run task (some f) now).id = task.id ∧
    (mark_last_run task (some f) now).name = task.name ∧
    (mark_last_run task (some f) now).description = task.description ∧
    (mark_last_run task (some f) now).command = task.command ∧
    (mark_last_run task (some f) now).task_type = task.task_type ∧
    (mark_last_run task (some f) now).cron_expression = task.cron_expression ∧
    (mark_last_run task (some f) now).is_enabled = task.is_enabled ∧
    (mark_last_run task (some f) now).targets = task.targets ∧
    (dispatch_run oracle ssh now task run stage jobs).run.finished_at = some now ∧
    (dispatch_run oracle ssh now task run stage jobs).task.last_run_at = some now ∧
    (task.is_periodic = false →
      (dispatch_run oracle ssh now task run stage jobs).task.next_run_at = none) := by
  have hd : dispatch_run oracle ssh now task run stage jobs
      = dispatch_core oracle ssh now task run stage jobs := by
    unfold dispatch_run
    rw [hg]
    rfl
  rw [hd]
  have htask : (dispatch_core oracle ssh now task run stage jobs).task
      = (if (mark_last_run task (some now) now).is_periodic
         then update_task_schedule oracle (mark_last_run task (some now) now) now
         else mark_last_run task (some now) now) := rfl
  obtain ⟨i, n, d, c, tt, ce, en, lr, nr, tg⟩ := task
  cases tt with
  | one_off =>
    refine ⟨rfl, fun _ => rfl, fun hper => ?_, rfl, rfl, rfl, rfl, rfl, rfl, rfl,
      rfl, rfl, ?_, fun _ => ?_⟩
    · simp [ExecutionTask.is_periodic] at hper
    · rw [htask]
      rfl
    · rw [htask]
      rfl
  | cron =>
    refine ⟨rfl, fun hper => ?_, fun _ => rfl, rfl, rfl, rfl, rfl, rfl, rfl, rfl,
      rfl, rfl, ?_, fun hper => ?_⟩
    · simp [ExecutionTask.is_periodic] at hper
    · rw [htask]
      have hip : (mark_last_run
          ⟨i, n, d, c, TaskType.cron, ce, en, lr, nr, tg⟩ (some now) now).is_periodic
          = true := rfl
      rw [hip, if_pos rfl, update_task_schedule_last_run_at]
      rfl
    · simp [ExecutionTask.is_periodic] at hper

/-- Witness for C10 on a one-off task and a queued run. -/
theorem mark_last_run_effect_witness :
    dispatchGuard demoRunQueued.status = false ∧
    ((mark_last_run demoTask (some 9) 5).last_run_at = some 9 ∧
    (demoTask.is_periodic = false →
      (mark_last_run demoTask (some 9) 5).next_run_at = none) ∧
    (demoTask.is_periodic = true →
      (mark_last_run demoTask (some 9) 5).next_run_at = demoTask.next_run_at) ∧
    (mark_last_run demoTask (some 9) 5).id = demoTask.id ∧
    (mark_last_run demoTask (some 9) 5).name = demoTask.name ∧
    (mark_last_run demoTask (some 9) 5).description = demoTask.description ∧
    (mark_last_run demoTask (some 9) 5).command = demoTask.command ∧
    (mark_last_run demoTask (some 9) 5).task_type = demoTask.task_type ∧
    (mark_last_run demoTask (some 9) 5).cron_expression = demoTask.cron_expression ∧
    (mark_last_run demoTask (some 9) 5).is_enabled = demoTask.is_enabled ∧
    (mark_last_run demoTask (some 9) 5).targets = demoTask.targets ∧
    (dispatch_run demoOracle demoSsh 5 demoTask demoRunQueued demoStage
      [demoJobA, demoJobB]).run.finished_at = some 5 ∧
    (dispatch_run demoOracle demoSsh 5 demoTask demoRunQueued demoStage
      [demoJobA, demoJobB]).task.last_run_at = some 5 ∧
    (demoTask.is_periodic = false →
      (dispatch_run demoOracle demoSsh 5 demoTask demoRunQueued demoStage
        [demoJobA, demoJobB]).task.next_run_at = none)) :=
  ⟨by decide,
    mark_last_run_effect demoOracle demoSsh 5 demoTask demoRunQueued demoStage
      [demoJobA, demoJobB] 9 (by decide)⟩

/-- Claim C7: while a task has a queued or running run, the cron sweep
skips it — no store change and no new run this pass — and the trigger
entry point refuses with the active-run warning (the spec's
`ActiveRunExists`) without creating a run. -/
theorem active_run_blocks (oracle : CronOracle) (s : ExecState)
    (task : ExecutionTask) (user : Option User) (now : Nat)
    (h : has_active_run s task = true) :
    dispatch_cron_task oracle s task now = (s, none) ∧
    trigger_task s task user now
      = (s, ViewOutcome.err "已存在执行中的任务,请稍后再试。") := by
  constructor
  · unfold dispatch_cron_task
    rw [h]
    rfl
  · unfold trigger_task
    rw [h]
    rfl

def demoStateActive : ExecState :=
  { tasks := [demoTask], runs := [demoRunQueued], stages := [], jobs := [],
    nextId := 31 }

/-- Witness for C7 on a task with a queued run. -/
theorem active_run_blocks_witness :
    has_active_run demoStateActive demoTask = true ∧
    (dispatch_cron_task demoOracle demoStateActive demoTask 7
        = (demoStateActive, none) ∧
      trigger_task demoStateActive demoTask none 7
        = (demoStateActive, ViewOutcome.err "已存在执行中的任务,请稍后再试。")) :=
  ⟨by decide,
    active_run_blocks demoOracle demoStateActive demoTask none 7 (by decide)⟩

/-- Claim C8: `retry_failed` on a run with K ≥ 1 failed jobs creates a new
run whose job rows target exactly the failed jobs' servers (and only
those, K of them); on a run with zero failed jobs it refuses with the
no-failed-targets message (the spec's `NoFailedTargets`) and creates
nothing. -/
theorem retry_failed_spec (s : ExecState) (task : ExecutionTask)
    (run : ExecutionRun) (user : Option User) (now : Nat) :
    (failed_servers_of_run s run = [] →
      retry_failed s task run user now
        = (s, ViewOutcome.err "没有失败的节点需要重试。")) ∧
    (failed_servers_of_run s run ≠ [] →
      ∃ s1 newRun newStage newJobs,
        retry_failed s task run user now = (s1, ViewOutcome.ok newRun) ∧
        s1.runs = s.runs ++ [newRun] ∧
        s1.stages = s.stages ++ [newStage] ∧
        newStage.runId = newRun.id ∧
        s1.jobs = s.jobs ++ newJobs ∧
        newJobs.map (fun j => j.server) = failed_servers_of_run s run ∧
        newJobs.length = (failed_servers_of_run s run).length ∧
        (∀ j ∈ newJobs, j.stageId = newStage.id)) := by
  constructor
  · intro h
    unfold retry_failed
    rw [h]
    rfl
  · intro h
    have hempty : (failed_servers_of_run s run).isEmpty = false := by
      cases hfs : failed_servers_of_run s run with
      | nil => exact absurd hfs h
      | cons a t => rfl
    have hok := create_run_ok s task (some (failed_servers_of_run s run)) none
      user true none now (failed_servers_of_run s run) rfl h
    have hmain : retry_failed s task run user now
        = ({ s with
              runs := s.runs ++ [created_run s task none user true none now]
              stages := s.stages ++ [created_stage s]
              jobs := s.jobs ++ prepare_stage_jobs (s.nextId + 2)
                (created_stage s).id (failed_servers_of_run s run)
              nextId := s.nextId + 2 + (failed_servers_of_run s run).length },
           ViewOutcome.ok (created_run s task none user true none now)) := by
      unfold retry_failed
      simp only [hempty, Bool.false_eq_true, if_false]
      rw [hok]
    exact ⟨_, _, created_stage s, _, hmain, rfl, rfl, rfl, rfl,
      prepare_stage_jobs_map_server _ _ _, prepare_stage_jobs_length _ _ _,
      fun j hj => prepare_stage_jobs_stageId _ _ _ hj⟩

def demoRunFailed : ExecutionRun :=
  ⟨40, 10, RunStatus.failed, none, some 1, some 2, none, false, ""⟩

def demoStageFailed : ExecutionStage :=
  ⟨41, 40, "远程执行", 1, StageStatus.failed, some 1, some 2⟩

def demoJobFailed : ExecutionJob :=
  ⟨42, 41, srvB, JobStatus.failed, none, "", "", "connection refused", some 1, some 2⟩

def demoJobOk : ExecutionJob :=
  ⟨43, 41, srvA, JobStatus.success, some 0, "ok", "", "", some 1, some 2⟩

def demoStateFailed : ExecState :=
  { tasks := [demoTask], runs := [demoRunFailed], stages := [demoStageFailed],
    jobs := [demoJobFailed, demoJobOk], nextId := 44 }

/-- Witness for C8 on a run with exactly one failed job. -/
theorem retry_failed_spec_witness :
    failed_servers_of_run demoStateFailed demoRunFailed ≠ [] ∧
    (∃ s1 newRun newStage newJobs,
      retry_failed demoStateFailed demoTask demoRunFailed none 7
        = (s1, ViewOutcome.ok newRun) ∧
      s1.runs = demoStateFailed.runs ++ [newRun] ∧
      s1.stages = demoStateFailed.stages ++ [newStage] ∧
      newStage.runId = newRun.id ∧
      s1.jobs = demoStateFailed.jobs ++ newJobs ∧
      newJobs.map (fun j => j.server)
        = failed_servers_of_run demoStateFailed demoRunFailed ∧
      newJobs.length
        = (failed_servers_of_run demoStateFailed demoRunFailed).length ∧
      (∀ j ∈ newJobs, j.stageId = newStage.id)) :=
  ⟨by decide,
    (retry_failed_spec demoStateFailed demoTask demoRunFailed none 7).2 (by decide)⟩

/-- Claim C9: cancelling a run succeeds exactly when its status is
scheduled or queued — it then becomes cancelled with a finish stamp — and
is refused with the invalid-state warning (the spec's `InvalidState`) on
any other status, leaving the store unchanged. -/
theorem cancel_run_spec (s : ExecState) (runId now : Nat) (run : ExecutionRun)
    (hfind : s.runs.find? (fun r => r.id == runId) = some run) :
    ((cancel_run s runId now).2 = none ↔
      (run.status = RunStatus.scheduled ∨ run.status = RunStatus.queued)) ∧
    ((run.status = RunStatus.scheduled ∨ run.status = RunStatus.queued) →
      (cancel_run s runId now).1.runs.find? (fun r => r.id == runId)
        = some { run with status := RunStatus.cancelled, finished_at := some now }) ∧
    (¬(run.status = RunStatus.scheduled ∨ run.status = RunStatus.queued) →
      cancel_run s runId now = (s, some "仅能取消排队或计划中的任务。")) := by
  by_cases hp : run.status = RunStatus.scheduled ∨ run.status = RunStatus.queued
  · have hc : (run.status == RunStatus.queued || run.status == RunStatus.scheduled)
        = true := by
      rcases hp with h | h <;> rw [h] <;> rfl
    have heq : cancel_run s runId now
        = ({ s with runs := s.runs.map (fun r =>
              if r.id == runId then
                { r with status := RunStatus.cancelled, finished_at := some now }
              else r) },
           none) := by
      unfold cancel_run
      rw [hfind]
      simp [hc]
    refine ⟨by rw [heq]; simp [hp], fun _ => ?_, fun hn => absurd hp hn⟩
    rw [heq]
    have hfm := find_map_keyed (fun r : ExecutionRun => r.id == runId)
      (fun r => { r with status := RunStatus.cancelled, finished_at := some now })
      (fun x => rfl) s.runs
    rw [hfind] at hfm
    exact hfm
  · have hcf : (run.status == RunStatus.queued || run.status == RunStatus.scheduled)
        = false := by
      cases h : run.status <;> simp_all
    have heq2 : cancel_run s runId now = (s, some "仅能取消排队或计划中的任务。") := by
      unfold cancel_run
      rw [hfind]
      simp [hcf]
    exact ⟨by rw [heq2]; simp [hp], fun h => absurd h hp, fun _ => heq2⟩

/-- Witness for C9 on a queued run. -/
theorem cancel_run_spec_witness :
    demoStateActive.runs.find? (fun r => r.id == 20) = some demoRunQueued ∧
    (((cancel_run demoStateActive 20 7).2 = none ↔
      (demoRunQueued.status = RunStatus.scheduled ∨
        demoRunQueued.status = RunStatus.queued)) ∧
    ((demoRunQueued.status = RunStatus.scheduled ∨
        demoRunQueued.status = RunStatus.queued) →
      (cancel_run demoStateActive 20 7).1.runs.find? (fun r => r.id == 20)
        = some { demoRunQueued with
                  status := RunStatus.cancelled, finished_at := some 7 }) ∧
    (¬(demoRunQueued.status = RunStatus.scheduled ∨
        demoRunQueued.status = RunStatus.queued) →
      cancel_run demoStateActive 20 7
        = (demoStateActive, some "仅能取消排队或计划中的任务。"))) :=
  ⟨rfl, cancel_run_spec demoStateActive 20 7 demoRunQueued rfl⟩

/-- Claim C6 (amended): when a scheduler pass fires an enabled cron task
(previous next-run-at `p` due, no active run, targets nonempty, evaluator
available), the value the cron sweep stores equals
`next_trigger(expr, p)` — the previous next-run-at, not the current time,
is the reference, however late the pass runs — and strictly exceeds `p`.
The claim's original universal form over all stored values is refuted by
`cron_cadence_counterexample`: the completion hook `_update_task_schedule`
additionally re-stores a value computed from the current time. -/
theorem cron_sweep_uses_previous_next_run (oracle : CronOracle) (s : ExecState)
    (task : ExecutionTask) (now p q : Nat)
    (hmono : ∀ e r t, oracle e r = some t → r < t)
    (hfind : s.tasks.find? (fun u => u.id == task.id) = some task)
    (hact : has_active_run s task = false)
    (hnra : task.next_run_at = some p)
    (hdue : ¬ now < p)
    (htgt : task.targets ≠ [])
    (hq : calculate_next_run oracle task.cron_expression p = some q) :
    (dispatch_cron_task oracle s task now).1.tasks.find? (fun u => u.id == task.id)
      = some { task with next_run_at := some q } ∧
    p < q ∧
    ((dispatch_cron_task oracle s task now).2).isSome = true := by
  have hpq : p < q := by
    unfold calculate_next_run at hq
    by_cases he : (task.cron_expression == "") = true
    · rw [if_pos he] at hq
      cases hq
    · rw [if_neg he] at hq
      exact hmono _ _ _ hq
  have hok := create_run_ok s task none none none false none now task.targets
    rfl htgt
  have heq : dispatch_cron_task oracle s task now
      = (set_task_next_run
          { s with
              runs := s.runs ++ [created_run s task none none false none now]
              stages := s.stages ++ [created_stage s]
              jobs := s.jobs ++ prepare_stage_jobs (s.nextId + 2)
                (created_stage s).id task.targets
              nextId := s.nextId + 2 + task.targets.length }
          task.id q,
         some (created_run s task none none false none now)) := by
    unfold dispatch_cron_task
    rw [hnra]
    simp only [hact, Bool.false_eq_true, if_false]
    rw [if_neg hdue, hok, hq]
  refine ⟨?_, hpq, ?_⟩
  · rw [heq]
    have hfm := find_map_keyed (fun u : ExecutionTask => u.id == task.id)
      (fun u => { u with next_run_at := some q }) (fun x => rfl) s.tasks
    rw [hfind] at hfm
    exact hfm
  · rw [heq]
    rfl

/-- Hourly cron oracle: next multiple of 60 strictly after the reference,
for the expression `0 * * * *` (croniter's behaviour on that expression,
with minutes as the time unit). -/
def hourlyOracle : CronOracle := fun e t =>
  if e == "0 * * * *" then some (60 * (t / 60) + 60) else none

/-- The hourly oracle returns times strictly after the reference. -/
theorem hourlyOracle_strict : ∀ e r t, hourlyOracle e r = some t → r < t := by
  intro e r t h
  unfold hourlyOracle at h
  by_cases he : (e == "0 * * * *") = true
  · rw [if_pos he] at h
    cases h
    have h2 := Nat.div_add_mod r 60
    have h1 : r % 60 < 60 := Nat.mod_lt r (by norm_num)
    omega
  · rw [if_neg he] at h
    cases h

def cronDemoTask : ExecutionTask :=
  { id := 10, name := "cron", description := "", command := "uptime",
    task_type := TaskType.cron, cron_expression := "0 * * * *",
    is_enabled := true, last_run_at := none, next_run_at := some 660,
    targets := [srvA] }

def cronDemoState : ExecState :=
  { tasks := [cronDemoTask], runs := [], stages := [], jobs := [], nextId := 11 }

def sshAllOk : Server → SSHOutcome := fun _ => SSHOutcome.ok 0 "" ""

/-- Witness for the amended C6: a task due at 660 fired by a pass at 810
gets `next_trigger(expr, 660) = 720` stored by the sweep, strictly above
660. -/
theorem cron_sweep_uses_previous_next_run_witness :
    cronDemoState.tasks.find? (fun u => u.id == cronDemoTask.id) = some cronDemoTask ∧
    has_active_run cronDemoState cronDemoTask = false ∧
    cronDemoTask.next_run_at = some 660 ∧
    ¬ (810 : Nat) < 660 ∧
    cronDemoTask.targets ≠ [] ∧
    calculate_next_run hourlyOracle cronDemoTask.cron_expression 660 = some 720 ∧
    ((dispatch_cron_task hourlyOracle cronDemoState cronDemoTask 810).1.tasks.find?
        (fun u => u.id == cronDemoTask.id)
      = some { cronDemoTask with next_run_at := some 720 } ∧
    (660 : Nat) < 720 ∧
    ((dispatch_cron_task hourlyOracle cronDemoState cronDemoTask 810).2).isSome = true) :=
  ⟨rfl, by decide, rfl, by decide, by decide, by decide,
    cron_sweep_uses_previous_next_run hourlyOracle cronDemoState cronDemoTask
      810 660 720 hourlyOracle_strict rfl (by decide) rfl (by decide) (by decide)
      (by decide)⟩

/-- Claim C6 counterexample: the hourly cron task due at 660, fired by a
pass at 810, first has 720 = `next_trigger(expr, 660)` stored by the
sweep; when the dispatched run (id 11) completes at 811, the dispatcher's
`_update_task_schedule` re-stores 840 = `next_trigger(expr, 811)` — but
`next_trigger(expr, 720) = 780 ≠ 840`, so this newly stored value is not
computed from the previous next-run-at, refuting the claim as stated. -/
theorem cron_cadence_counterexample :
    ((dispatch_cron_task hourlyOracle cronDemoState cronDemoTask 810).1.tasks.find?
        (fun u => u.id == 10)).map (fun u => u.next_run_at) = some (some 720) ∧
    ((execute_run hourlyOracle sshAllOk
        (dispatch_cron_task hourlyOracle cronDemoState cronDemoTask 810).1
        11 811).tasks.find? (fun u => u.id == 10)).map (fun u => u.next_run_at)
      = some (some 840) ∧
    calculate_next_run hourlyOracle "0 * * * *" 720 = some 780 ∧
    (840 : Nat) ≠ 780 :=
  ⟨by decide, by decide, by decide, by decide⟩

end Cmdb
